import Mathlib

/-
  Verification of the MCU project generator (src/Tools/MCU/rme_mcu.c)
  against its natural-language specification.

  Shallow embedding conventions:
  * The C type ptr_t is `typedef u32`, so machine values are modelled as
    Nat, reduced mod 2^32 (`W32`) exactly where the C arithmetic can wrap.
  * AUTO and INVALID are `(ptr_t)(-1)` and `(ptr_t)(-2)`.
  * C strings are `List Char`.  A read `s[i]` through a `s8*` pointer is
    modelled by `cGet`, which yields the NUL character `chNul` at or past
    the end of the list (the buffers produced by Get_String are
    NUL-terminated; reads beyond the terminator are modelled as NUL).
  * Functions whose C originals read a buffer slice `[Start, End]` take
    the remainder of the buffer starting at `Start` together with the
    slice length `n = End - Start + 1`; `n = 0` models `End < Start`.
  * `EXIT_FAIL` is modelled by `Except.error` (or `none` / `false` where
    only success vs. abort matters).
-/

namespace RmeMcu

/-- The modulus 2^32 of the 32-bit `ptr_t` arithmetic. -/
def W32 : Nat := 4294967296

/-- The sentinel `AUTO`, defined as `(ptr_t)(-1)` (rme_mcu.c line 83). -/
def AUTO : Nat := W32 - 1

/-- The sentinel `INVALID`, defined as `(ptr_t)(-2)` (rme_mcu.c line 84). -/
def INVALID : Nat := W32 - 2

/-- The NUL character terminating C strings. -/
def chNul : Char := Char.ofNat 0

/-- Read character `i` of a C string: the list element when in range,
    the NUL terminator otherwise. -/
def cGet (s : List Char) (i : Nat) : Char := s.getD i chNul

/-- C `tolower` on a character, as its numeric (byte) value. -/
def toLowerC (c : Char) : Nat :=
  if 'A' ≤ c ∧ c ≤ 'Z' then c.toNat + 32 else c.toNat

/-- The test `strncmp(Start, "Auto", 4) == 0`: the buffer begins with the four
    characters `Auto` (none of which is NUL, so strncmp compares exactly
    these four positions). -/
def startsAutoC (s : List Char) : Prop :=
  cGet s 0 = 'A' ∧ cGet s 1 = 'u' ∧ cGet s 2 = 't' ∧ cGet s 3 = 'o'

instance (s : List Char) : Decidable (startsAutoC s) := by
  unfold startsAutoC; infer_instance

/-- Value of a hex digit character, `none` when the character is not in
    `[0-9A-Fa-f]` (the three comparison chains of Get_Hex, lines 921-928). -/
def hexDigitVal (c : Char) : Option Nat :=
  if '0' ≤ c ∧ c ≤ '9' then some (c.toNat - 48)
  else if 'A' ≤ c ∧ c ≤ 'F' then some (c.toNat - 65 + 10)
  else if 'a' ≤ c ∧ c ≤ 'f' then some (c.toNat - 97 + 10)
  else none

/-- The digit loop of Get_Hex (rme_mcu.c lines 918-931): `k` counts the
    remaining iterations (`Start_Ptr` runs from index 2 to `n - 1`).
    A non-digit returns INVALID from inside the loop (line 928); when the
    loop runs off the end the function returns INVALID as well
    (line 931 of the source reads `return INVALID;`, not `return Val;`). -/
def Get_Hex_loop (s : List Char) : Nat → Nat → Nat → Nat
  | _, _, 0 => INVALID
  | i, val, k + 1 =>
    match hexDigitVal (cGet s i) with
    | none => INVALID
    | some d => Get_Hex_loop s (i + 1) ((val * 16 + d) % W32) k

/-- Get_Hex (rme_mcu.c lines 901-932).  `s` is the buffer remainder at
    `Start`, `n` the slice length `End - Start + 1` (0 models `End < Start`
    or a null pointer, which return 0 at line 907). -/
def Get_Hex (s : List Char) (n : Nat) : Nat :=
  if n = 0 then 0
  else if ¬ (cGet s 0 = '0' ∧ (cGet s 1 = 'x' ∨ cGet s 1 = 'X')) then
    if startsAutoC s then AUTO else INVALID
  else Get_Hex_loop s 2 0 (n - 2)

/-- The digit loop of Get_Uint (rme_mcu.c lines 954-963).  The source
    multiplies by 16 (line 956, `Val*=16`) even though it parses decimal
    digits, and returns INVALID after the loop (line 963). -/
def Get_Uint_loop (s : List Char) : Nat → Nat → Nat → Nat
  | _, _, 0 => INVALID
  | i, val, k + 1 =>
    if '0' ≤ cGet s i ∧ cGet s i ≤ '9' then
      Get_Uint_loop s (i + 1) ((val * 16 + ((cGet s i).toNat - 48)) % W32) k
    else INVALID

/-- Get_Uint (rme_mcu.c lines 942-964). -/
def Get_Uint (s : List Char) (n : Nat) : Nat :=
  if n = 0 then 0
  else if startsAutoC s then AUTO
  else Get_Uint_loop s 0 0 n

/-- Memory access permission constants (rme_mcu.c lines 94-99).  Note the
    source defines them as the plain values 0..5, not as single-bit masks. -/
def MEM_READ : Nat := 0
def MEM_WRITE : Nat := 1
def MEM_EXECUTE : Nat := 2
def MEM_BUFFERABLE : Nat := 3
def MEM_CACHEABLE : Nat := 4
def MEM_STATIC : Nat := 5

/-- Memory type constants (rme_mcu.c lines 90-92). -/
def MEM_CODE : Nat := 0
def MEM_DATA : Nat := 1
def MEM_DEVICE : Nat := 2

/-- The attribute-parsing tail of Parse_Process_Memory (rme_mcu.c lines
    1300-1318), acting on the attribute string (`strchr(Attr_Temp, c) != 0`
    is membership of `c` in the string).  The source uses two else-if
    chains: the first ORs in MEM_READ when `R` is present, else MEM_WRITE
    when `W` is ABSENT, else MEM_EXECUTE when `X` is ABSENT, else aborts;
    the second ORs in MEM_BUFFERABLE when `B` is present, else MEM_CACHEABLE
    when `W` is absent, else MEM_STATIC when `X` is absent.
    `none` models `EXIT_FAIL("No access to the memory is allowed.")`. -/
def Parse_Process_Memory_Attr (s : List Char) : Option Nat :=
  let step1 : Option Nat :=
    if s.contains 'R' then some (0 ||| MEM_READ)
    else if ¬ s.contains 'W' then some (0 ||| MEM_WRITE)
    else if ¬ s.contains 'X' then some (0 ||| MEM_EXECUTE)
    else none
  match step1 with
  | none => none
  | some a =>
    some (if s.contains 'B' then a ||| MEM_BUFFERABLE
          else if ¬ s.contains 'W' then a ||| MEM_CACHEABLE
          else if ¬ s.contains 'X' then a ||| MEM_STATIC
          else a)

/-- struct Mem_Info (rme_mcu.c lines 207-214); the C field `Type` is
    renamed `Ty` (Lean keyword).  All fields are `ptr_t` values. -/
structure Mem_Info where
  Start : Nat
  Size : Nat
  Ty : Nat
  Attr : Nat
  Align : Nat
deriving DecidableEq

/-- The power-of-two loop of A7M_Align (rme_mcu.c lines 3055-3057):
    starting from `Temp = 1`, double until `Temp >= size`.  The first
    argument is fuel; `pow2ge` supplies enough for any size. -/
def pow2Loop (s : Nat) : Nat → Nat → Nat
  | _, 0 => 1
  | t, k + 1 => if t < s then pow2Loop s (2 * t) k else t

/-- Smallest power of two reached by the loop of A7M_Align. -/
def pow2ge (s : Nat) : Nat := pow2Loop s 1 s

/-- A7M_Align (rme_mcu.c lines 3037-3063).  A segment with a concrete
    start must have start and size both multiples of 32 (`& 0x1F`); an
    AUTO segment gets `Align = Temp/8` for the smallest power of two
    `Temp >= Size`, and its size is replaced by
    `((Size - 1) / Align) * Align` (line 3059).  `none` models return -1. -/
def A7M_Align (m : Mem_Info) : Option Mem_Info :=
  if m.Start ≠ AUTO then
    if m.Start % 32 ≠ 0 then none
    else if m.Size % 32 ≠ 0 then none
    else some m
  else
    let temp := pow2ge m.Size
    let align := temp / 8
    some { m with Align := align, Size := (m.Size - 1) / align * align }

/-- Strcicmp (rme_mcu.c lines 2453-2467).  The source declares
    `cnt_t Count;` but never initialises or increments it: every loop
    iteration compares the same index.  The uninitialised value is taken
    as the explicit parameter `c`.  With the index fixed, one iteration
    decides everything: a differing pair of characters returns their
    difference, an equal pair ending `Str1` returns 0, and an equal
    non-NUL pair repeats forever — modelled as `none`. -/
def Strcicmp (c : Nat) (s1 s2 : List Char) : Option Int :=
  let r : Int := (toLowerC (cGet s1 c) : Int) - (toLowerC (cGet s2 c) : Int)
  if r ≠ 0 then some r
  else if cGet s1 c = chNul then some 0
  else none

/-- Endpoint type constants (rme_mcu.c lines 101-103). -/
def ENDP_SEND : Nat := 0
def ENDP_RECEIVE : Nat := 1
def ENDP_HANDLER : Nat := 2

/-- Kernel object type constants (rme_mcu.c lines 108-112). -/
def CAP_CAPTBL : Nat := 0
def CAP_PROC : Nat := 1
def CAP_THD : Nat := 2
def CAP_INV : Nat := 3
def CAP_ENDP : Nat := 4

/-- struct Thd_Info (rme_mcu.c lines 216-226), the fields the verified
    stages read. -/
structure Thd_Info where
  Name : List Char
deriving DecidableEq

/-- struct Inv_Info (rme_mcu.c lines 228-236), the fields the verified
    stages read. -/
structure Inv_Info where
  Name : List Char
  RVM_Capid : Nat
deriving DecidableEq

/-- struct Port_Info (rme_mcu.c lines 238-244). -/
structure Port_Info where
  Name : List Char
  Process : List Char
  RVM_Capid : Nat
deriving DecidableEq

/-- struct Endp_Info (rme_mcu.c lines 246-253); the C field `Type` is
    renamed `Ty` (Lean keyword). -/
structure Endp_Info where
  Name : List Char
  Process : List Char
  Ty : Nat
  RVM_Capid : Nat
deriving DecidableEq

/-- struct Proc_Info (rme_mcu.c lines 255-273): the paired
    count-plus-array fields (`Thd_Num`/`Thd`, ...) become lists. -/
structure Proc_Info where
  Name : List Char
  Thd : List Thd_Info
  Inv : List Inv_Info
  Port : List Port_Info
  Endp : List Endp_Info
deriving DecidableEq

/-- The process-search loop of Backprop_Global_ID for a port (rme_mcu.c
    lines 2834-2838): scan processes in order and stop at the first whose
    name compares equal to the KEY under Strcicmp.  The source passes
    `Port->Name` — not `Port->Process` — as the key (line 2836).
    `none` propagates a diverging Strcicmp; `some none` is loop exit
    without a match (`Proc_Tmp_Cnt == Proj->Proc_Num`). -/
def Backprop_find_proc (c : Nat) (key : List Char) :
    List Proc_Info → Option (Option Proc_Info)
  | [] => some none
  | p :: rest =>
    match Strcicmp c p.Name key with
    | none => none
    | some r => if r = 0 then some (some p) else Backprop_find_proc c key rest

/-- The invocation-search loop for a port (rme_mcu.c lines 2841-2848):
    first invocation of the located process whose name matches the
    port's name; yields its RVM_Capid. -/
def Backprop_find_inv (c : Nat) (key : List Char) :
    List Inv_Info → Option (Option Nat)
  | [] => some none
  | v :: rest =>
    match Strcicmp c v.Name key with
    | none => none
    | some r => if r = 0 then some (some v.RVM_Capid) else Backprop_find_inv c key rest

/-- Resolution of one port (rme_mcu.c lines 2831-2851): locate a process
    (by the port's Name, as the source does), fail with
    "Invalid process for port." when none matches, then locate the
    invocation by name and yield its global ID, failing when the located
    process has no matching invocation. -/
def Backprop_port (c : Nat) (procs : List Proc_Info) (port : Port_Info) :
    Option (Except String Nat) :=
  match Backprop_find_proc c port.Name procs with
  | none => none
  | some none => some (Except.error "Invalid process for port.")
  | some (some p) =>
    match Backprop_find_inv c port.Name p.Inv with
    | none => none
    | some none =>
      some (Except.error "One of the ports does not have a corresponding invocation.")
    | some (some id) => some (Except.ok id)

/-- The port half of Backprop_Global_ID (rme_mcu.c lines 2827-2851):
    resolve every port of every process in order, returning the list of
    global IDs copied into the port entries; the first failure aborts
    (`EXIT_FAIL`), a diverging comparison hangs (`none`). -/
def Backprop_ports_go (c : Nat) (procs : List Proc_Info) :
    List Port_Info → Option (Except String (List Nat))
  | [] => some (Except.ok [])
  | port :: rest =>
    match Backprop_port c procs port with
    | none => none
    | some (Except.error e) => some (Except.error e)
    | some (Except.ok id) =>
      match Backprop_ports_go c procs rest with
      | none => none
      | some (Except.error e) => some (Except.error e)
      | some (Except.ok l) => some (Except.ok (id :: l))

/-- Backprop_Global_ID restricted to ports (rme_mcu.c lines 2817-2851),
    over all processes' ports in declaration order. -/
def Backprop_Global_ID_ports (c : Nat) (procs : List Proc_Info) :
    Option (Except String (List Nat)) :=
  Backprop_ports_go c procs (procs.flatMap fun p => p.Port)

/-- Holds the value true exactly when the port back-resolution ran to completion
    without aborting or hanging. -/
def backpropOk (r : Option (Except String (List Nat))) : Bool :=
  match r with
  | some (Except.ok _) => true
  | _ => false

/-- The inner scan of Detect_Handler (rme_mcu.c lines 2526-2533): compare
    the handler's name against every endpoint name in the system, in
    order, with no index excluded — the handler itself included.
    `some true` is a match (`EXIT_FAIL("Duplicate handlers found.")`),
    `none` a diverging comparison. -/
def Detect_Handler_scan (c : Nat) (key : List Char) :
    List (List Char) → Option Bool
  | [] => some false
  | n :: rest =>
    match Strcicmp c n key with
    | none => none
    | some r => if r = 0 then some true else Detect_Handler_scan c key rest

/-- Detect_Handler (rme_mcu.c lines 2508-2536).  For every endpoint of
    handler type, scan all endpoint names of all processes (including the
    handler's own entry).  `some false` models falling through
    (validation passes), `some true` a duplicate abort, `none` divergence.
    Deviation forced by the source: line 2523 reads
    `Endp=&(Proc->Port[Obj_Cnt]);` — it indexes the Port array with an
    endpoint count through an `Endp_Info*` pointer, which is ill-typed C
    with no layout-independent meaning; the embedding reads the endpoint
    array `Proc->Endp[Obj_Cnt]`, the reading under which the claim has its
    best chance.  The missing self-exclusion is embedded exactly as in
    the source. -/
def Detect_Handler_go (c : Nat) (names : List (List Char)) :
    List Endp_Info → Option Bool
  | [] => some false
  | e :: rest =>
    if e.Ty = ENDP_HANDLER then
      match Detect_Handler_scan c e.Name names with
      | none => none
      | some true => some true
      | some false => Detect_Handler_go c names rest
    else Detect_Handler_go c names rest

/-- Detect_Handler, assembled: walk every process's endpoint list in
    order and apply the duplicate scan to each handler endpoint. -/
def Detect_Handler (c : Nat) (procs : List Proc_Info) : Option Bool :=
  Detect_Handler_go c (procs.flatMap fun p => p.Endp.map fun e => e.Name)
    (procs.flatMap fun p => p.Endp)

/-- One entry of the RVM global capability table
    (struct RVM_Cap_Info, rme_mcu.c lines 186-194): owner process index,
    object type (`CAP_*`), and the object's index within its per-process
    array (pointers in the source become indices here). -/
structure RVM_Cap_Info where
  Proc : Nat
  Ty : Nat
  Obj : Nat
deriving DecidableEq

/-- A counter-threading fill loop shared by the five passes of
    Alloc_Global_ID (rme_mcu.c lines 2740-2801): each element is written
    with the current `Capid`, which then increments. -/
def fillSeq (mk : α → RVM_Cap_Info) : List α → Nat → List (RVM_Cap_Info × Nat) × Nat
  | [], capid => ([], capid)
  | a :: rest, capid =>
    let r := fillSeq mk rest (capid + 1)
    ((mk a, capid) :: r.1, r.2)

/-- The `(process index, thread index)` pairs in the order of the thread pass
    (rme_mcu.c lines 2761-2772): processes in order, threads in
    declaration order. -/
def thdPairs (procs : List Proc_Info) : List (Nat × Nat) :=
  procs.enum.flatMap fun pp => (List.range pp.2.Thd.length).map fun i => (pp.1, i)

/-- The `(process index, invocation index)` pairs in the order of the
    invocation pass (rme_mcu.c lines 2774-2785). -/
def invPairs (procs : List Proc_Info) : List (Nat × Nat) :=
  procs.enum.flatMap fun pp => (List.range pp.2.Inv.length).map fun i => (pp.1, i)

/-- The `(process index, endpoint index)` pairs of the receive endpoints, in
    the order of the receive pass (rme_mcu.c lines 2787-2801): the pass
    walks every endpoint and takes those with `Type == ENDP_RECEIVE`. -/
def recvPairs (procs : List Proc_Info) : List (Nat × Nat) :=
  procs.enum.flatMap fun pp =>
    (pp.2.Endp.enum.filter fun ee => decide (ee.2.Ty = ENDP_RECEIVE)).map
      fun ee => (pp.1, ee.1)

/-- Entry constructors for the five passes. -/
def mkCaptblE (p : Nat) : RVM_Cap_Info := ⟨p, CAP_CAPTBL, p⟩
def mkProcE (p : Nat) : RVM_Cap_Info := ⟨p, CAP_PROC, p⟩
def mkThdE (pi : Nat × Nat) : RVM_Cap_Info := ⟨pi.1, CAP_THD, pi.2⟩
def mkInvE (pi : Nat × Nat) : RVM_Cap_Info := ⟨pi.1, CAP_INV, pi.2⟩
def mkRecvE (pi : Nat × Nat) : RVM_Cap_Info := ⟨pi.1, CAP_ENDP, pi.2⟩

/-- Get_Global_Number (rme_mcu.c lines 2690-2713): two table entries per
    process (capability table and process object), then per process the
    thread count, the invocation count, and the number of endpoints of
    receive type. -/
def Get_Global_Number (procs : List Proc_Info) : Nat :=
  procs.foldl
    (fun capid pr =>
      capid + pr.Thd.length + pr.Inv.length
        + (pr.Endp.filter fun e => decide (e.Ty = ENDP_RECEIVE)).length)
    (procs.length + procs.length)

/-- Alloc_Global_ID (rme_mcu.c lines 2722-2805): compute the frontier
    with Get_Global_Number, fill the global table in five passes — all
    capability tables, all process objects, all threads, all invocations,
    all receive endpoints — each entry taking the next `Capid` starting
    from 0, and abort when the final counter differs from the frontier
    (lines 2803-2804).  The result lists each entry with the global ID
    assigned to it (also written into the object's RVM_Capid field). -/
def Alloc_Global_ID (procs : List Proc_Info) :
    Except String (List (RVM_Cap_Info × Nat)) :=
  let n := Get_Global_Number procs
  let s1 := fillSeq mkCaptblE (List.range procs.length) 0
  let s2 := fillSeq mkProcE (List.range procs.length) s1.2
  let s3 := fillSeq mkThdE (thdPairs procs) s2.2
  let s4 := fillSeq mkInvE (invPairs procs) s3.2
  let s5 := fillSeq mkRecvE (recvPairs procs) s4.2
  if n ≠ s5.2 then Except.error "Internal global capability ID allocator failure."
  else Except.ok (s1.1 ++ s2.1 ++ s3.1 ++ s4.1 ++ s5.1)

/-- Modelled from the claim's words, for comparison with
    `Alloc_Global_ID`: the global order the specification prescribes —
    one capability-table entry per process, then one process-object entry
    per process, then all threads, all invocations, all receive
    endpoints, each in process order then declaration order. -/
def specCapOrder (procs : List Proc_Info) : List RVM_Cap_Info :=
  ((List.range procs.length).map mkCaptblE)
    ++ ((List.range procs.length).map mkProcE)
    ++ ((thdPairs procs).map mkThdE)
    ++ ((invPairs procs).map mkInvE)
    ++ ((recvPairs procs).map mkRecvE)

/-- One chip segment of a Mem_Map (rme_mcu.c lines 319-327) together with
    its bitmap.  The source packs one bit per 4 bytes into a byte array;
    the bitmap is modelled as the list of marked bit indices. -/
structure Map_Seg where
  Start : Nat
  Size : Nat
  Bits : List Nat
deriving DecidableEq

/-- Try_Bitmap (rme_mcu.c lines 2194-2204): bits `st .. st+sz-1` all
    clear. -/
def Try_Bitmap (bits : List Nat) (st sz : Nat) : Bool :=
  (List.range sz).all fun i => Bool.not (bits.contains (st + i))

/-- Mark_Bitmap (rme_mcu.c lines 2215-2222): set bits `st .. st+sz-1`. -/
def Mark_Bitmap (bits : List Nat) (st sz : Nat) : List Nat :=
  bits ++ (List.range sz).map fun i => st + i

/-- Fit_Mem (rme_mcu.c lines 2266-2305) for one auto-placed segment over
    the chip-segment list (in index order).  Per chip segment: skip when
    the segment is larger than the chip segment; round the chip start up
    and the chip end down to the segment's alignment; skip when the
    rounded window is too small; then try candidate addresses
    `Try_Addr = Start_Addr, Start_Addr+Align, ...` while
    `Try_Addr < End_Addr - Size` (a strict comparison in the source,
    line 2290), accepting the first whose bitmap range
    `[(Try_Addr-chip.Start)/4, +Size/4)` is clear and marking it.
    Returns the accepted address and the updated chip list.
    All the address arithmetic involved stays far below 2^32 for the
    inputs considered, so the u32 operations are written on Nat. -/
def Fit_Mem (mem : Mem_Info) : List Map_Seg → Option (Nat × List Map_Seg)
  | [] => none
  | fit :: rest =>
    let tryRest : Option (Nat × List Map_Seg) :=
      (Fit_Mem mem rest).map fun r => (r.1, fit :: r.2)
    if mem.Size > fit.Size then tryRest
    else
      let startA := (fit.Start + mem.Align - 1) / mem.Align * mem.Align
      let endA := (fit.Start + fit.Size) / mem.Align * mem.Align
      if mem.Size > endA - startA then tryRest
      else
        let endB := endA - mem.Size
        let k := if startA < endB then (endB - startA + mem.Align - 1) / mem.Align else 0
        let cands := (List.range k).map fun j => startA + j * mem.Align
        match cands.find? (fun t => Try_Bitmap fit.Bits ((t - fit.Start) / 4) (mem.Size / 4)) with
        | some t =>
          some (t, { fit with Bits := Mark_Bitmap fit.Bits ((t - fit.Start) / 4) (mem.Size / 4) } :: rest)
        | none => tryRest

/-- Populate_Mem (rme_mcu.c lines 2232-2256): find the first chip segment
    whose range contains `start`; fail when none does or when
    `start + size` overruns that segment.  The subsequent marking call of
    the source (line 2254) is `Mark_Bitmap(Rel_Start/4,Size/4)` — it
    omits the bitmap argument entirely and has no defined meaning, so
    only the containment verdict is modelled. -/
def Populate_Mem (segs : List Map_Seg) (start size : Nat) : Bool :=
  match segs.find? fun sg => decide (sg.Start ≤ start ∧ start < sg.Start + sg.Size) with
  | none => false
  | some sg => decide (¬ (sg.Start + sg.Size < start + size))

/-- The RME General section fields used by memory placement
    (struct RME_Info, rme_mcu.c lines 172-184). -/
structure RME_Info where
  Code_Start : Nat
  Code_Size : Nat
  Data_Start : Nat
  Data_Size : Nat
deriving DecidableEq

/-- The RME/RVM population step of Alloc_Mem for the data kind
    (rme_mcu.c lines 2377-2383): the source calls
    `Populate_Mem(Map, Proj->RME.Code_Start, Proj->RME.Data_Size)` and
    then `Populate_Mem(Map, Proj->RME.Code_Start+Proj->RME.Data_Size,
    Proj->RVM.Data_Size)` — both anchored at `Code_Start`, not
    `Data_Start` — failing with "Invalid address designated." when a
    region lands outside every chip data segment. -/
def Alloc_Mem_Data_Populate (rme : RME_Info) (rvmDataSize : Nat)
    (dataSegs : List Map_Seg) : Except String Unit :=
  if Populate_Mem dataSegs rme.Code_Start rme.Data_Size = false then
    Except.error "Invalid address designated."
  else if Populate_Mem dataSegs (rme.Code_Start + rme.Data_Size) rvmDataSize = false then
    Except.error "Invalid address designated."
  else Except.ok ()

/-- The bounding-box loop of A7M_Gen_Pgtbl (rme_mcu.c lines 3451-3457):
    the smallest `t` with
    `End <= ((Start >> t) << t) + 2^t`, found by counting up from 0.
    Fuel 40 covers every 32-bit input (`t = 32` always satisfies the
    test for `End <= 2^32`). -/
def totalOrderLoop (s e : Nat) : Nat → Nat → Nat
  | t, 0 => t
  | t, k + 1 => if e ≤ ((s >>> t) <<< t) + 2 ^ t then t else totalOrderLoop s e (t + 1) k

/-- The raw total order of A7M_Gen_Pgtbl before the minimum-of-8 bump. -/
def totalOrderRaw (s e : Nat) : Nat := totalOrderLoop s e 0 40

/-- Straddle test of the num-order scan (rme_mcu.c lines 3493-3508): some
    segment strictly contains one of the pivots
    `Pivot_Addr = (End-Start)/2^n * Count + Start`, `Count = 1 .. 2^n-1`. -/
def cutApartAt (segs : List Mem_Info) (s e n : Nat) : Bool :=
  segs.any fun m =>
    (List.range (2 ^ n - 1)).any fun j =>
      let pivot := (e - s) / 2 ^ n * (j + 1) + s
      decide (m.Start < pivot ∧ pivot < m.Start + m.Size)

/-- The `Num_Order` scan loop (rme_mcu.c lines 3490-3511): `Num_Order`
    runs 1, 2, 3 and the loop breaks at the first order that cuts a
    segment apart (`Cut_Apart = 1`); when no order cuts, the loop leaves
    `Num_Order = 4` with `Cut_Apart = 0`. -/
def firstCutOrder (segs : List Mem_Info) (s e : Nat) : Option Nat :=
  if cutApartAt segs s e 1 then some 1
  else if cutApartAt segs s e 2 then some 2
  else if cutApartAt segs s e 3 then some 3
  else none

/-- The `Num_Order` adjustment (rme_mcu.c lines 3513-3517): decrement
    only when `Num_Order > 1` and something was cut apart; a scan that
    found no cut keeps the loop's exit value `Num_Order = 4`. -/
def numOrderScan (segs : List Mem_Info) (s e : Nat) : Nat :=
  match firstCutOrder segs s e with
  | some n => if n > 1 then n - 1 else n
  | none => 4

/-- The order-selection head of A7M_Gen_Pgtbl (rme_mcu.c lines
    3439-3520), returning `(Total_Order, Num_Order)`:
    bound the segments (`Start` folds down from `(ptr_t)(-1)`, `End` up
    from 0), find the power-of-two box, extend the order to at least 8,
    abort (`none`) past `Total_Max`; then `Num_Order = 3` when the
    segments are directly mappable (uniform attributes, starts and sizes
    divisible by `2^(Total_Order-3)`, lines 3472-3485), else the scan
    value.  The empty segment list never reaches this code. -/
def A7M_Gen_Pgtbl_Order (segs : List Mem_Info) (totalMax : Nat) :
    Option (Nat × Nat) :=
  match segs with
  | [] => none
  | m0 :: _ =>
    let s := segs.foldl (fun acc m => min acc m.Start) (W32 - 1)
    let e := segs.foldl (fun acc m => max acc (m.Start + m.Size)) 0
    let t0 := totalOrderRaw s e
    let t := if t0 < 8 then 8 else t0
    if t > totalMax then none
    else
      let direct := segs.all fun m =>
        decide (m.Attr = m0.Attr ∧ m.Start % 2 ^ (t - 3) = 0 ∧ m.Size % 2 ^ (t - 3) = 0)
      some (t, if direct then 3 else numOrderScan segs s e)

/-- The specification's port-resolution scenario: a process `A` holding a
    port `{target = B, name = Foo}` and a process `B` holding an
    invocation `Foo` whose global capability ID is 3. -/
def portExample : List Proc_Info :=
  [ { Name := [ 'A' ], Thd := [], Inv := [],
      Port := [ { Name := [ 'F', 'o', 'o' ], Process := [ 'B' ], RVM_Capid := INVALID } ],
      Endp := [] },
    { Name := [ 'B' ], Thd := [],
      Inv := [ { Name := [ 'F', 'o', 'o' ], RVM_Capid := 3 } ],
      Port := [], Endp := [] } ]

/-- A configuration with a single vector (handler) endpoint `Timer` and
    no other endpoint anywhere: its name is globally unique, so the
    handler-uniqueness check is expected to pass. -/
def handlerExample : List Proc_Info :=
  [ { Name := [ 'A' ], Thd := [], Inv := [], Port := [],
      Endp := [ { Name := [ 'T', 'i', 'm', 'e', 'r' ], Process := [],
                  Ty := ENDP_HANDLER, RVM_Capid := 0 } ] } ]

/- ------------------------------------------------------------------ -/
/- Helper lemmas                                                       -/
/- ------------------------------------------------------------------ -/

theorem cGet_nul (s : List Char) (i : Nat) (h : s.length ≤ i) : cGet s i = chNul := by
  unfold cGet
  exact List.getD_eq_default _ _ h

theorem toLowerC_nul : toLowerC chNul = 0 := by decide

theorem strcicmp_nul (c : Nat) (s1 s2 : List Char)
    (h1 : s1.length ≤ c) (h2 : s2.length ≤ c) : Strcicmp c s1 s2 = some 0 := by
  simp [Strcicmp, cGet_nul _ _ h1, cGet_nul _ _ h2, toLowerC_nul]

theorem get_hex_loop_invalid (s : List Char) :
    ∀ k i v, Get_Hex_loop s i v k = INVALID := by
  intro k
  induction k with
  | zero => intro i v; rfl
  | succ k ih =>
    intro i v
    simp only [Get_Hex_loop]
    cases h : hexDigitVal (cGet s i) with
    | none => rfl
    | some d => exact ih _ _

theorem fillSeq_eq (mk : α → RVM_Cap_Info) (l : List α) (c : Nat) :
    fillSeq mk l c = ((l.map mk).zip (List.range' c l.length), c + l.length) := by
  induction l generalizing c with
  | nil => rfl
  | cons a t ih =>
    simp [fillSeq, ih, List.range'_succ, List.zip_cons_cons]
    omega

theorem range1_append (s m n : Nat) :
    List.range' s m ++ List.range' (s + m) n = List.range' s (m + n) := by
  have h := List.range'_append s m n 1
  simp only [Nat.one_mul] at h
  rw [Nat.add_comm m n]
  exact h

theorem range1_append_h (s m n t : Nat) (h : t = s + m) :
    List.range' s m ++ List.range' t n = List.range' s (m + n) := by
  rw [h]
  exact range1_append s m n

theorem foldl_ggn (l : List Proc_Info) (a : Nat) :
    l.foldl
        (fun capid pr =>
          capid + pr.Thd.length + pr.Inv.length
            + (pr.Endp.filter fun e => decide (e.Ty = ENDP_RECEIVE)).length)
        a
      = a + (l.map fun p => p.Thd.length).sum
          + (l.map fun p => p.Inv.length).sum
          + (l.map fun p => (p.Endp.filter fun e => decide (e.Ty = ENDP_RECEIVE)).length).sum := by
  induction l generalizing a with
  | nil => simp
  | cons p t ih =>
    simp only [List.foldl_cons, List.map_cons, List.sum_cons, ih]
    omega

theorem length_filter_enumFrom (q : α → Bool) (l : List α) (n : Nat) :
    ((l.enumFrom n).filter fun ee => q ee.2).length = (l.filter q).length := by
  induction l generalizing n with
  | nil => rfl
  | cons a t ih =>
    simp only [List.enumFrom, List.filter_cons]
    cases hq : q a with
    | true => simp [hq, ih]
    | false => simp [hq, ih]

theorem thdPairs_length (procs : List Proc_Info) :
    (thdPairs procs).length = (procs.map fun p => p.Thd.length).sum := by
  unfold thdPairs
  rw [List.length_flatMap]
  rw [show (List.length ∘ fun pp : Nat × Proc_Info =>
      (List.range pp.2.Thd.length).map fun i => (pp.1, i))
      = ((fun p : Proc_Info => p.Thd.length) ∘ Prod.snd) from by funext pp; simp]
  rw [← List.map_map, List.enum_map_snd]

theorem invPairs_length (procs : List Proc_Info) :
    (invPairs procs).length = (procs.map fun p => p.Inv.length).sum := by
  unfold invPairs
  rw [List.length_flatMap]
  rw [show (List.length ∘ fun pp : Nat × Proc_Info =>
      (List.range pp.2.Inv.length).map fun i => (pp.1, i))
      = ((fun p : Proc_Info => p.Inv.length) ∘ Prod.snd) from by funext pp; simp]
  rw [← List.map_map, List.enum_map_snd]

theorem recvPairs_length (procs : List Proc_Info) :
    (recvPairs procs).length
      = (procs.map fun p => (p.Endp.filter fun e => decide (e.Ty = ENDP_RECEIVE)).length).sum := by
  unfold recvPairs
  rw [List.length_flatMap]
  rw [show (List.length ∘ fun pp : Nat × Proc_Info =>
      (pp.2.Endp.enum.filter fun ee => decide (ee.2.Ty = ENDP_RECEIVE)).map
        fun ee => (pp.1, ee.1))
      = ((fun p : Proc_Info =>
          (p.Endp.filter fun e => decide (e.Ty = ENDP_RECEIVE)).length) ∘ Prod.snd) from by
        funext pp
        simp only [Function.comp, List.length_map, List.enum]
        exact length_filter_enumFrom (fun e => decide (e.Ty = ENDP_RECEIVE)) pp.2.Endp 0]
  rw [← List.map_map, List.enum_map_snd]

theorem get_global_number_eq (procs : List Proc_Info) :
    Get_Global_Number procs
      = procs.length + procs.length
        + (procs.map fun p => p.Thd.length).sum
        + (procs.map fun p => p.Inv.length).sum
        + (procs.map fun p => (p.Endp.filter fun e => decide (e.Ty = ENDP_RECEIVE)).length).sum := by
  unfold Get_Global_Number
  exact foldl_ggn procs _

/- ------------------------------------------------------------------ -/
/- Claim theorems                                                      -/
/- ------------------------------------------------------------------ -/

/-- Claim C2: Alloc_Global_ID succeeds (its internal frontier check
    passes), and the global IDs it hands out are exactly 0, 1, 2, ... in
    the claimed order — all capability tables (one per process), all
    process objects, all threads, all invocations, all receive
    endpoints, process order then declaration order — forming the dense
    range `[0, N)` with
    `N = 2*#processes + #threads + #invocations + #receives`. -/
theorem c2_global_ids_dense_ordered (procs : List Proc_Info) :
    Alloc_Global_ID procs
      = Except.ok ((specCapOrder procs).zip (List.range (Get_Global_Number procs)))
    ∧ Get_Global_Number procs
      = 2 * procs.length
        + (procs.map fun p => p.Thd.length).sum
        + (procs.map fun p => p.Inv.length).sum
        + (procs.map fun p => (p.Endp.filter fun e => decide (e.Ty = ENDP_RECEIVE)).length).sum := by
  have hP : (List.range procs.length).length = procs.length := List.length_range _
  have hT := thdPairs_length procs
  have hI := invPairs_length procs
  have hR := recvPairs_length procs
  have hG := get_global_number_eq procs
  constructor
  · simp only [Alloc_Global_ID, fillSeq_eq]
    have hcond : ¬ (Get_Global_Number procs
        ≠ 0 + (List.range procs.length).length + (List.range procs.length).length
            + (thdPairs procs).length + (invPairs procs).length + (recvPairs procs).length) := by
      simp only [ne_eq, not_not]
      rw [hG, hP, hT, hI, hR]
      omega
    rw [if_neg hcond]
    have hzip :
        ((List.range procs.length).map mkCaptblE).zip
            (List.range' 0 (List.range procs.length).length)
          ++ ((List.range procs.length).map mkProcE).zip
              (List.range' (0 + (List.range procs.length).length)
                (List.range procs.length).length)
          ++ ((thdPairs procs).map mkThdE).zip
              (List.range' (0 + (List.range procs.length).length
                  + (List.range procs.length).length)
                (thdPairs procs).length)
          ++ ((invPairs procs).map mkInvE).zip
              (List.range' (0 + (List.range procs.length).length
                  + (List.range procs.length).length + (thdPairs procs).length)
                (invPairs procs).length)
          ++ ((recvPairs procs).map mkRecvE).zip
              (List.range' (0 + (List.range procs.length).length
                  + (List.range procs.length).length + (thdPairs procs).length
                  + (invPairs procs).length)
                (recvPairs procs).length)
        = (specCapOrder procs).zip (List.range (Get_Global_Number procs)) := by
      rw [← List.zip_append (by
        simp only [List.length_append, List.length_map, List.length_range', List.length_range])]
      rw [← List.zip_append (by
        simp only [List.length_append, List.length_map, List.length_range', List.length_range])]
      rw [← List.zip_append (by
        simp only [List.length_append, List.length_map, List.length_range', List.length_range])]
      rw [← List.zip_append (by
        simp only [List.length_append, List.length_map, List.length_range', List.length_range])]
      unfold specCapOrder
      congr 1
      rw [range1_append_h _ _ _ _ (by omega)]
      rw [range1_append_h _ _ _ _ (by omega)]
      rw [range1_append_h _ _ _ _ (by omega)]
      rw [range1_append_h _ _ _ _ (by omega)]
      rw [List.range_eq_range' (Get_Global_Number procs)]
      refine congrArg (fun k => List.range' 0 k) ?_
      rw [hG, hP, hT, hI, hR]
    exact congrArg Except.ok hzip
  · rw [hG]
    omega

/-- Claim C3: the specification says hex parsing returns the numeric
    value for every `0x`/`0X` digit string.  The code cannot: Get_Hex's
    only outcomes are 0 (bad slice), AUTO, and INVALID — its digit loop
    falls through to `return INVALID`, so even the well-formed input
    `0x1` yields INVALID instead of 1. -/
theorem c3_get_hex_never_numeric :
    (∀ s n, Get_Hex s n = 0 ∨ Get_Hex s n = AUTO ∨ Get_Hex s n = INVALID) ∧
    Get_Hex [ '0', 'x', '1' ] 3 = INVALID := by
  constructor
  · intro s n
    simp only [Get_Hex]
    split
    · exact Or.inl rfl
    · split
      · split
        · exact Or.inr (Or.inl rfl)
        · exact Or.inr (Or.inr rfl)
      · exact Or.inr (Or.inr (get_hex_loop_invalid s _ _ _))
  · decide

/-- Claim C10: both numeric parsers recognise the Auto sentinel from the
    first four characters alone — any buffer beginning `Auto`, whatever
    follows (the slice length `n` may even cut inside it), parses as
    AUTO. -/
theorem c10_auto_sentinel (rest : List Char) (n : Nat) (h : 1 ≤ n) :
    Get_Hex ( 'A' :: 'u' :: 't' :: 'o' :: rest) n = AUTO ∧
    Get_Uint ( 'A' :: 'u' :: 't' :: 'o' :: rest) n = AUTO := by
  have hn : ¬ (n = 0) := by omega
  have hauto : startsAutoC ( 'A' :: 'u' :: 't' :: 'o' :: rest) := ⟨rfl, rfl, rfl, rfl⟩
  have hnot : ¬ (cGet ( 'A' :: 'u' :: 't' :: 'o' :: rest) 0 = '0' ∧
      (cGet ( 'A' :: 'u' :: 't' :: 'o' :: rest) 1 = 'x' ∨
       cGet ( 'A' :: 'u' :: 't' :: 'o' :: rest) 1 = 'X')) := by
    intro hcon
    have h0 : cGet ( 'A' :: 'u' :: 't' :: 'o' :: rest) 0 = 'A' := rfl
    rw [h0] at hcon
    exact absurd hcon.1 (by decide)
  constructor
  · unfold Get_Hex
    rw [if_neg hn, if_pos hnot, if_pos hauto]
  · unfold Get_Uint
    rw [if_neg hn, if_pos hauto]

/-- Witness for C10 at the concrete input `AutoXYZ` with slice length 7. -/
theorem c10_auto_sentinel_witness :
    1 ≤ 7 ∧
    (Get_Hex ( 'A' :: 'u' :: 't' :: 'o' :: [ 'X', 'Y', 'Z' ]) 7 = AUTO ∧
     Get_Uint ( 'A' :: 'u' :: 't' :: 'o' :: [ 'X', 'Y', 'Z' ]) 7 = AUTO) :=
  ⟨by decide, c10_auto_sentinel [ 'X', 'Y', 'Z' ] 7 (by decide)⟩

/-- Claim C4: the specification treats the attribute string as a set of
    letters, each of R,W,X,B,C,S independently setting its flag, failing
    only when none of R,W,X occurs.  The code's else-if chains do not:
    `W` alone yields `MEM_EXECUTE ||| MEM_STATIC = 7` (not a Write flag),
    `RWX` yields 0, `B` alone succeeds with 3 instead of failing, and
    `WX` aborts with "no access" although W and X are present. -/
theorem c4_attr_eval :
    Parse_Process_Memory_Attr [ 'W' ] = some 7 ∧
    Parse_Process_Memory_Attr [ 'R', 'W', 'X' ] = some 0 ∧
    Parse_Process_Memory_Attr [ 'B' ] = some 3 ∧
    Parse_Process_Memory_Attr [ 'W', 'X' ] = none := by
  decide

/-- Claim C5: the specification rounds an Auto segment's size down to a
    multiple of `align = P/8` (a size already a multiple stays
    unchanged), and requires concrete-start segments to be 32-byte
    aligned in start and size.  The code computes
    `((Size-1)/Align)*Align`: for `Size = 0x400` (align 0x80, itself a
    multiple) it shrinks the segment to 0x380.  The concrete-start
    checks behave as claimed. -/
theorem c5_align_eval :
    A7M_Align { Start := AUTO, Size := 1024, Ty := MEM_DATA, Attr := 0, Align := 0 }
      = some { Start := AUTO, Size := 896, Ty := MEM_DATA, Attr := 0, Align := 128 } ∧
    A7M_Align { Start := 536870912, Size := 1024, Ty := MEM_DATA, Attr := 0, Align := 0 }
      = some { Start := 536870912, Size := 1024, Ty := MEM_DATA, Attr := 0, Align := 0 } ∧
    A7M_Align { Start := 536870916, Size := 1024, Ty := MEM_DATA, Attr := 0, Align := 0 }
      = none := by
  decide

/-- Claim C6: the specification walks candidate starts while
    `s + size ≤ chip.end`, so an Auto segment whose size equals the whole
    free space of a chip segment is placed at its start.  The code's
    loop bound is strict (`Try_Addr < End_Addr` after
    `End_Addr -= Size`), so the exact-fit candidate is never tried: a
    0x100-byte segment fails against an empty 0x100-byte chip segment,
    while the same segment is placed at the chip start as soon as the
    chip segment is larger. -/
theorem c6_fit_exact_eval :
    Fit_Mem { Start := AUTO, Size := 256, Ty := MEM_DATA, Attr := 0, Align := 256 }
        [ { Start := 4096, Size := 256, Bits := [] } ] = none ∧
    (Fit_Mem { Start := AUTO, Size := 256, Ty := MEM_DATA, Attr := 0, Align := 256 }
        [ { Start := 4096, Size := 512, Bits := [] } ]).map Prod.fst = some 4096 := by
  decide

/-- Claim C7: the specification marks the RME data region at
    `Data_Start` (and RVM's right after it) in the chip data segment
    containing them.  The code anchors both calls at `RME.Code_Start`
    (rme_mcu.c lines 2379-2381), so with a perfectly valid layout — data
    at 0x20000000 inside the only chip data segment — the pass aborts
    with "invalid address designated", although the claimed region is
    containable (second conjunct). -/
theorem c7_alloc_data_eval :
    Alloc_Mem_Data_Populate
        { Code_Start := 134217728, Code_Size := 65536,
          Data_Start := 536870912, Data_Size := 4096 } 4096
        [ { Start := 536870912, Size := 65536, Bits := [] } ]
      = Except.error "Invalid address designated." ∧
    Populate_Mem [ { Start := 536870912, Size := 65536, Bits := [] } ]
        536870912 4096 = true := by
  exact ⟨rfl, by decide⟩

/-- Claim C9: the specification picks `num_order` from 1..3 (largest
    with no straddle, else 1).  On the spec's own example — two 1 KiB
    code segments at 0x08010000 and 0x08010C00 with differing attributes
    — the code indeed picks 2 (first conjunct).  But when no order in
    1..3 straddles anything and the segments are still not directly
    mappable, the scan loop runs off the end and the code keeps
    `Num_Order = 4` (second conjunct), outside the claimed 1..3 range
    (16 subregions, overflowing the 8-entry mapping array). -/
theorem c9_num_order_eval :
    A7M_Gen_Pgtbl_Order
        [ { Start := 134283264, Size := 1024, Ty := MEM_CODE, Attr := 1, Align := 0 },
          { Start := 134286336, Size := 1024, Ty := MEM_CODE, Attr := 2, Align := 0 } ] 32
      = some (12, 2) ∧
    A7M_Gen_Pgtbl_Order
        [ { Start := 536870912, Size := 32, Ty := MEM_CODE, Attr := 1, Align := 0 },
          { Start := 536871168, Size := 32, Ty := MEM_CODE, Attr := 2, Align := 0 } ] 32
      = some (9, 4) := by
  decide

/-- Claim C1: back-resolution is claimed to locate the port's target
    process (the Process field) and copy the named invocation's global
    ID, succeeding on `portExample`.  The code looks the process up by
    the port's Name field instead (and its Strcicmp helper compares a
    single never-advancing index `c`, the uninitialised loop counter):
    for every possible `c` the pipeline aborts — either no process is
    named `Foo`, or (for `c` past every string) the first process
    matches spuriously and has no invocation — never yielding the
    claimed resolution. -/
theorem c1_backprop_port_fails (c : Nat) :
    backpropOk (Backprop_Global_ID_ports c portExample) = false := by
  by_cases hc : c < 3
  · interval_cases c <;> decide
  · have hA : Strcicmp c [ 'A' ] [ 'F', 'o', 'o' ] = some 0 :=
      strcicmp_nul c _ _ (by simp; omega) (by simp; omega)
    simp [Backprop_Global_ID_ports, portExample, Backprop_ports_go,
      Backprop_port, Backprop_find_proc, Backprop_find_inv, hA, backpropOk]

/-- Claim C8: the handler-uniqueness check is claimed to pass whenever
    all vector names are globally unique.  The code compares every
    handler endpoint against every endpoint entry including itself, so
    `handlerExample` (one vector `Timer`, nothing else) never passes:
    for every value `c` of Strcicmp's uninitialised index the check
    either hangs (equal non-NUL characters forever) or aborts with
    "Duplicate handlers found" — `some false` (fall-through, validation
    passes) is impossible. -/
theorem c8_handler_never_passes (c : Nat) :
    Detect_Handler c handlerExample ≠ some false := by
  by_cases hc : c < 5
  · interval_cases c <;> decide
  · have hT : Strcicmp c [ 'T', 'i', 'm', 'e', 'r' ] [ 'T', 'i', 'm', 'e', 'r' ] = some 0 :=
      strcicmp_nul c _ _ (by simp; omega) (by simp; omega)
    simp [Detect_Handler, Detect_Handler_go, Detect_Handler_scan, handlerExample, hT]

end RmeMcu
